import Mathlib

/-!
Verification of the FreeD packet decoder and frame converter.

Shallow embedding of `src/blackhole/device_capture/freed_capture.py`:
the `FreeDPacket` decoder (field extraction, signed fixed-point decode,
checksum validation) and the `FreeDCaptureThread` conversion routines
(`packageFrameData`, `parsePacket`, `validateParsedData`).

Bytes are modelled as `Nat` values (with `< 256` bounds supplied as
hypotheses where the reasoning needs them) and Python floats as `ℚ`:
every number produced by the decoder is a 24-bit integer divided by a
power of two, hence exactly representable, so rational arithmetic is a
faithful model of the floating-point computation.
-/

namespace FreeD

/-- Packet size constant `FREED_PACKET_SIZE`: all FreeD position/orientation
data is sent in 29-byte packets. -/
def FREED_PACKET_SIZE : Nat := 29

/-- Big-endian unsigned interpretation of a byte string, as in Python
`int.from_bytes(bytes, byteorder='big')`. -/
def intFromBytesBE (bytes : List Nat) : Nat :=
  bytes.foldl (fun acc b => acc * 256 + b) 0

/-- Big-endian signed (two's-complement) interpretation of a byte string,
as in Python `int.from_bytes(bytes, byteorder='big', signed=True)`:
if the top bit of the first byte is set, the value wraps by `2 ^ (8·len)`. -/
def intFromBytesSignedBE (bytes : List Nat) : Int :=
  if intFromBytesBE bytes < 2 ^ (8 * bytes.length - 1) then (intFromBytesBE bytes : Int)
  else (intFromBytesBE bytes : Int) - 2 ^ (8 * bytes.length)

/-- Model of `FreeDPacket.getFreeDFloat`: interpret `rawBytes` as a big-endian
two's-complement integer and divide by `2 ^ fractionalByteSize` as a
(here: rational) floating value. -/
def getFreeDFloat (rawBytes : List Nat) (fractionalByteSize : Nat) : ℚ :=
  (intFromBytesSignedBE rawBytes : ℚ) / ((1 <<< fractionalByteSize : Nat) : ℚ)

/-- Contiguous sub-buffer `l[start : start+len]`, as produced for each
field by `struct.unpack` on the packet buffer. -/
def fieldSlice (l : List Nat) (start len : Nat) : List Nat :=
  (l.drop start).take len

/-- The decoded `FreeDPacket` record: the stored raw bytes plus every
scalar field assigned by `FreeDPacket.__init__`. -/
structure FreeDPacket where
  packetBytes : List Nat
  cam_id : Nat
  rot_pan : ℚ
  rot_tilt : ℚ
  rot_roll : ℚ
  pos_x : ℚ
  pos_y : ℚ
  pos_z : ℚ
  zoom : Nat
  focus : Nat
  spare : Nat
  checksum : Nat
  deriving Repr, DecidableEq

/-- Field extraction of `FreeDPacket.__init__` on a 29-byte buffer: the
`struct.unpack` format `!cc3s3s3s3s3s3s3s3s2sc` splits the buffer at
offsets 0,1,2,5,8,11,14,17,20,23,26,28, and each field is decoded
exactly as in the constructor body. -/
def decodeFields (b : List Nat) : FreeDPacket where
  packetBytes := b
  cam_id := intFromBytesBE (fieldSlice b 1 1)
  rot_pan := getFreeDFloat (fieldSlice b 2 3) 15
  rot_tilt := getFreeDFloat (fieldSlice b 5 3) 15
  rot_roll := getFreeDFloat (fieldSlice b 8 3) 15
  pos_x := getFreeDFloat (fieldSlice b 11 3) 6
  pos_y := getFreeDFloat (fieldSlice b 14 3) 6
  pos_z := getFreeDFloat (fieldSlice b 17 3) 6
  zoom := intFromBytesBE (fieldSlice b 20 3)
  focus := intFromBytesBE (fieldSlice b 23 3)
  spare := intFromBytesBE (fieldSlice b 26 2)
  checksum := intFromBytesBE (fieldSlice b 28 1)

/-- Outcome of running the `FreeDPacket` constructor.  Python's
`__init__` returns early on a length mismatch after only logging, so the
caller still receives an object — one on which **no** attribute was ever
assigned; `uninitializedObject` models that escaped partially-constructed
value. -/
inductive FreeDPacketInit where
  | uninitializedObject : FreeDPacketInit
  | ok : FreeDPacket → FreeDPacketInit
  deriving Repr, DecidableEq

/-- Model of `FreeDPacket.__init__`: reject (by early return, leaving the object's
fields unset) any buffer whose length differs from 29, otherwise unpack
and decode every field. -/
def freeDPacketInit (packetData : List Nat) : FreeDPacketInit :=
  if packetData.length ≠ FREED_PACKET_SIZE then .uninitializedObject
  else .ok (decodeFields packetData)

/-- One step of the checksum loop: `sum = (sum - byte) & 0x3`.  On
Python's arbitrary-precision integers `x & 0x3` equals the nonnegative
residue `x % 4`, which is `Int.emod` in Lean. -/
def checksumStep (acc : Int) (byte : Nat) : Int :=
  (acc - (byte : Int)) % 4

/-- Model of `FreeDPacket.checksumValid` as a function of the stored bytes:
start
the accumulator at `0x40`, fold `checksumStep` over every byte of the
packet, and compare the result with 0. -/
def checksumValidBytes (bytes : List Nat) : Bool :=
  bytes.foldl checksumStep 0x40 == 0

/-- Method view of `FreeDPacket.checksumValid`, reading the bytes stored in
the packet record. -/
def FreeDPacket.checksumValid (p : FreeDPacket) : Bool :=
  checksumValidBytes p.packetBytes

/-- The output record built by `FreeDCaptureThread.packageFrameData`.
The Python code stores the values in a `dict` under the distinct keys
`TRACKING_X`, …, `TRACKING_TIMECODE_KEY` imported from
`blackhole.constants` (not part of the excerpt); the dict is modelled as
a structure with one field per key. -/
structure FrameRecord where
  target_x : ℚ
  target_y : ℚ
  target_z : ℚ
  target_pitch : ℚ
  target_yaw : ℚ
  target_roll : ℚ
  timecode : Nat
  deriving Repr, DecidableEq

/-- Model of `FreeDCaptureThread.packageFrameData`.  Here `systemTimecode` is the value
returned by the external collaborator call
`utils.getSystemTimecodeAsFrames(self.frameRate)` (from
`blackhole.database_utils`, not part of the excerpt); modelled from the
spec: the caller-supplied system timecode as an integer frame count,
stamped into the record unmodified. -/
def packageFrameData (systemTimecode : Nat) (packet : FreeDPacket) : FrameRecord where
  target_x := packet.pos_y / 10
  target_y := packet.pos_z / 10
  target_z := packet.pos_x / 10
  target_pitch := packet.rot_tilt
  target_yaw := -(packet.rot_pan + 90)
  target_roll := packet.rot_roll
  timecode := systemTimecode

/-- Model of `FreeDCaptureThread.parsePacket`: if the buffer's first byte is
`0xD1`, construct a `FreeDPacket` from it and return it, else return
`None`.  (Python compares the slice `packetBytes[0:1]` against
`b"\xd1"`, which is also `False` for an empty buffer.) -/
def parsePacket (packetBytes : List Nat) : Option FreeDPacketInit :=
  if packetBytes.take 1 = [0xd1] then some (freeDPacketInit packetBytes)
  else none

/-- Model of `FreeDCaptureThread.validateParsedData`: a `None` (and any
non-`FreeDPacket` value) is rejected; a constructed packet is accepted
iff its checksum is valid.  An uninitialized object *is* an instance of
`FreeDPacket`, so on it the Python code would read the missing
`packetBytes` attribute; that read raises, modelled as `none`. -/
def validateParsedData (parsedPacket : Option FreeDPacketInit) : Option Bool :=
  match parsedPacket with
  | none => some false
  | some .uninitializedObject => none
  | some (.ok p) => some p.checksumValid

/-! Specification-side definitions, stated independently of the decoder,
against which the source functions are compared. -/

/-- Sum of a byte list, as an integer. -/
def sumInt (l : List Nat) : Int := (l.map fun b => (b : Int)).sum

/-- Genuine two's-complement reading of a 24-bit unsigned value: values
with the top bit of the 24-bit field set wrap by `2 ^ 24`. -/
def twosComplement24 (u : Nat) : Int :=
  if u < 2 ^ 23 then (u : Int) else (u : Int) - 2 ^ 24

/-- Encoding of an integer in `[-2^23, 2^23)` as three big-endian
two's-complement bytes. -/
def encode24BE (n : Int) : List Nat :=
  [(n % 2 ^ 24).toNat / 65536 % 256, (n % 2 ^ 24).toNat / 256 % 256,
   (n % 2 ^ 24).toNat % 256]

/-- Concrete 29-byte buffer whose pos_x field (offsets 11-13) holds the
maximal positive 24-bit pattern `0x7FFFFF`. -/
def maxPosXBuf : List Nat :=
  [0xd1, 0, 0, 0, 0, 0, 0, 0, 0, 0, 0, 0x7f, 0xff, 0xff, 0,
   0, 0, 0, 0, 0, 0, 0, 0, 0, 0, 0, 0, 0, 0]

/-- Concrete 29-byte buffer whose pan field (offsets 2-4) holds the
maximal positive 24-bit pattern `0x7FFFFF`. -/
def maxPanBuf : List Nat :=
  [0xd1, 0, 0x7f, 0xff, 0xff, 0, 0, 0, 0, 0, 0, 0, 0, 0, 0,
   0, 0, 0, 0, 0, 0, 0, 0, 0, 0, 0, 0, 0, 0]

/-! Helper lemmas. -/

/-- Sum of a nonempty byte list. -/
theorem sumInt_cons (x : Nat) (t : List Nat) :
    sumInt (x :: t) = (x : Int) + sumInt t := by
  simp [sumInt]

/-- One checksum step on an accumulator already reduced mod 4 agrees with
step-then-reduce. -/
theorem foldl_checksumStep_emod (l : List Nat) : ∀ a : Int,
    l.foldl checksumStep (a % 4) = (a - sumInt l) % 4 := by
  induction l with
  | nil => intro a; simp [sumInt]
  | cons x t ih =>
      intro a
      have h1 : checksumStep (a % 4) x = (a - (x : Int)) % 4 := by
        unfold checksumStep; omega
      have h2 : a - (x : Int) - sumInt t = a - sumInt (x :: t) := by
        rw [sumInt_cons]; ring
      simp only [List.foldl_cons, h1, ih (a - (x : Int)), h2]

/-- On a nonempty buffer the checksum loop computes
`(0x40 - Σ bytes) mod 4`. -/
theorem checksumValidBytes_cons (x : Nat) (t : List Nat) :
    checksumValidBytes (x :: t) = ((0x40 - sumInt (x :: t)) % 4 == 0) := by
  have h0 : checksumStep 0x40 x = (0x40 - (x : Int)) % 4 := rfl
  have h2 : 0x40 - (x : Int) - sumInt t = 0x40 - sumInt (x :: t) := by
    rw [sumInt_cons]; ring
  rw [checksumValidBytes, List.foldl_cons, h0, foldl_checksumStep_emod, h2]

/-- Byte lists that agree pointwise mod 4 have sums that agree mod 4. -/
theorem sumInt_mod_congr : ∀ l1 l2 : List Nat,
    l1.map (· % 4) = l2.map (· % 4) → sumInt l1 % 4 = sumInt l2 % 4 := by
  intro l1
  induction l1 with
  | nil =>
      intro l2 h
      cases l2 with
      | nil => rfl
      | cons y s => simp at h
  | cons x t ih =>
      intro l2 h
      cases l2 with
      | nil => simp at h
      | cons y s =>
          simp only [List.map_cons, List.cons.injEq] at h
          have hs := ih s h.2
          have hx : x % 4 = y % 4 := h.1
          rw [sumInt_cons, sumInt_cons]
          omega

/-- Unsigned big-endian value of a 3-byte string. -/
theorem intFromBytesBE_three (b0 b1 b2 : Nat) :
    intFromBytesBE [b0, b1, b2] = b0 * 65536 + b1 * 256 + b2 := by
  simp [intFromBytesBE]; ring

/-- Signed big-endian decode of a 3-byte string is the two's-complement
reading of the 24-bit concatenation. -/
theorem intFromBytesSignedBE_three (b0 b1 b2 : Nat) :
    intFromBytesSignedBE [b0, b1, b2] = twosComplement24 (b0 * 65536 + b1 * 256 + b2) := by
  unfold intFromBytesSignedBE twosComplement24
  rw [intFromBytesBE_three]
  norm_num

/-- Decoding the 3-byte big-endian two's-complement encoding of an
in-range integer gives that integer back. -/
theorem decode_encode24BE (n : Int) (h1 : -(2 ^ 23) ≤ n) (h2 : n < 2 ^ 23) :
    intFromBytesSignedBE (encode24BE n) = n := by
  rw [encode24BE, intFromBytesSignedBE_three]
  unfold twosComplement24
  split <;> omega

/-- The denominator `1 <<< f` of the fixed-point decode is `2 ^ f`. -/
theorem shiftLeft_cast_pow (f : Nat) : ((1 <<< f : Nat) : ℚ) = 2 ^ f := by
  rw [Nat.shiftLeft_eq, one_mul]; push_cast; ring

/-- Closed form of the fixed-point decode. -/
theorem getFreeDFloat_eq (l : List Nat) (f : Nat) :
    getFreeDFloat l f = (intFromBytesSignedBE l : ℚ) / 2 ^ f := by
  rw [getFreeDFloat, shiftLeft_cast_pow]

/-- Range of the signed decode of three genuine bytes. -/
theorem signedBE3_bounds (l : List Nat) (hl : l.length = 3)
    (hb : ∀ x ∈ l, x < 256) :
    -(2 ^ 23) ≤ intFromBytesSignedBE l ∧ intFromBytesSignedBE l < 2 ^ 23 := by
  match l, hl with
  | [b0, b1, b2], _ =>
    have h0 := hb b0 (by simp)
    have h1 := hb b1 (by simp)
    have h2 := hb b2 (by simp)
    rw [intFromBytesSignedBE_three]
    unfold twosComplement24
    split <;> constructor <;> omega

/-- Range of the fixed-point decode of three genuine bytes. -/
theorem getFreeDFloat_bounds (l : List Nat) (hl : l.length = 3)
    (hb : ∀ x ∈ l, x < 256) (f : Nat) :
    -((2 : ℚ) ^ 23 / 2 ^ f) ≤ getFreeDFloat l f ∧
    getFreeDFloat l f < (2 : ℚ) ^ 23 / 2 ^ f := by
  obtain ⟨ha, hb'⟩ := signedBE3_bounds l hl hb
  rw [getFreeDFloat_eq]
  have hpos : (0 : ℚ) < 2 ^ f := by positivity
  constructor
  · rw [← neg_div]
    exact (div_le_div_iff_of_pos_right hpos).mpr (by exact_mod_cast ha)
  · exact (div_lt_div_iff_of_pos_right hpos).mpr (by exact_mod_cast hb')

/-- Every element of a field slice is an element of the buffer. -/
theorem fieldSlice_subset (l : List Nat) (s n : Nat) :
    ∀ x ∈ fieldSlice l s n, x ∈ l := by
  intro x hx
  exact List.drop_subset s l (List.take_subset n _ hx)

/-- A 3-byte field slice fully inside a 29-byte buffer has length 3. -/
theorem fieldSlice_length_three (l : List Nat) (hl : l.length = 29)
    (s : Nat) (hs : s + 3 ≤ 29) : (fieldSlice l s 3).length = 3 := by
  simp [fieldSlice, hl]
  omega

/-- Range of any 3-byte fixed-point field of a 29-byte buffer of genuine
bytes. -/
theorem decodeField_bound (b : List Nat) (hb : b.length = 29)
    (hby : ∀ x ∈ b, x < 256) (s : Nat) (hs : s + 3 ≤ 29) (f : Nat) :
    -((2 : ℚ) ^ 23 / 2 ^ f) ≤ getFreeDFloat (fieldSlice b s 3) f ∧
    getFreeDFloat (fieldSlice b s 3) f < (2 : ℚ) ^ 23 / 2 ^ f :=
  getFreeDFloat_bounds _ (fieldSlice_length_three b hb s hs)
    (fun x hx => hby x (fieldSlice_subset b s 3 x hx)) f

/-! Claim theorems. -/

/-- C1: for every 29-byte buffer, `checksumValid` — an accumulator started
at `0x40` from which each of the 29 bytes is subtracted in order, the
accumulator being masked to its low 2 bits after each subtraction —
returns `true` iff `(0x40 - Σ bytes)` is congruent to 0 modulo 4. -/
theorem c1_checksum_iff_mod4 (b : List Nat) (hb : b.length = 29) :
    checksumValidBytes b = true ↔ (0x40 - sumInt b) % 4 = 0 := by
  cases b with
  | nil => simp at hb
  | cons x t =>
      rw [checksumValidBytes_cons]
      exact beq_iff_eq

/-- Witness for C1 at the all-zero 29-byte buffer. -/
theorem c1_checksum_witness :
    (List.replicate 29 0 : List Nat).length = 29 ∧
    (checksumValidBytes (List.replicate 29 0) = true ↔
      (0x40 - sumInt (List.replicate 29 0)) % 4 = 0) :=
  ⟨by decide, c1_checksum_iff_mod4 (List.replicate 29 0) (by decide)⟩

/-- C2 (defect witnessed in the code): on a buffer of length 28 or 30 the
constructor does not fail explicitly; it returns an object on which no
field was ever assigned, and `parsePacket` hands that partially
constructed value to the caller. -/
theorem c2_bad_length_escape :
    freeDPacketInit (List.replicate 28 0) = .uninitializedObject ∧
    freeDPacketInit (List.replicate 30 0) = .uninitializedObject ∧
    parsePacket (0xd1 :: List.replicate 27 0) = some .uninitializedObject := by
  refine ⟨by decide, by decide, by decide⟩

/-- C3: the signed fixed-point decode reads a 3-byte field as a big-endian
two's-complement 24-bit integer — sign-extended over the whole 24-bit
field — divided by `2 ^ fractionalBits`, and the packet constructor uses
fractionalBits 15 for pan/tilt/roll and 6 for pos_x/pos_y/pos_z. -/
theorem c3_fixed_point_decode :
    (∀ b0 b1 b2 f : Nat, b0 < 256 → b1 < 256 → b2 < 256 →
      getFreeDFloat [b0, b1, b2] f =
        (twosComplement24 (b0 * 65536 + b1 * 256 + b2) : ℚ) / 2 ^ f) ∧
    (∀ b : List Nat,
      (decodeFields b).rot_pan = getFreeDFloat (fieldSlice b 2 3) 15 ∧
      (decodeFields b).rot_tilt = getFreeDFloat (fieldSlice b 5 3) 15 ∧
      (decodeFields b).rot_roll = getFreeDFloat (fieldSlice b 8 3) 15 ∧
      (decodeFields b).pos_x = getFreeDFloat (fieldSlice b 11 3) 6 ∧
      (decodeFields b).pos_y = getFreeDFloat (fieldSlice b 14 3) 6 ∧
      (decodeFields b).pos_z = getFreeDFloat (fieldSlice b 17 3) 6) := by
  constructor
  · intro b0 b1 b2 f h0 h1 h2
    rw [getFreeDFloat_eq, intFromBytesSignedBE_three]
  · intro b
    exact ⟨rfl, rfl, rfl, rfl, rfl, rfl⟩

/-- Witness for C3 at the all-ones 3-byte field. -/
theorem c3_fixed_point_witness :
    (255 : Nat) < 256 ∧
    getFreeDFloat [255, 255, 255] 15 =
      (twosComplement24 (255 * 65536 + 255 * 256 + 255) : ℚ) / 2 ^ 15 :=
  ⟨by decide,
   c3_fixed_point_decode.1 255 255 255 15 (by decide) (by decide) (by decide)⟩

/-- C4: the converter maps `pos_y/10, pos_z/10, pos_x/10` to
target x/y/z, passes tilt and roll through, negates `pan + 90` for yaw;
on pos `(1000, 2000, 3000)` and rot `(10, 20, 30)` it yields
`(200, 300, 100)` and `(20, -100, 30)`. -/
theorem c4_axis_remap :
    (∀ (tc : Nat) (p : FreeDPacket),
      (packageFrameData tc p).target_x = p.pos_y / 10 ∧
      (packageFrameData tc p).target_y = p.pos_z / 10 ∧
      (packageFrameData tc p).target_z = p.pos_x / 10 ∧
      (packageFrameData tc p).target_pitch = p.rot_tilt ∧
      (packageFrameData tc p).target_yaw = -(p.rot_pan + 90) ∧
      (packageFrameData tc p).target_roll = p.rot_roll) ∧
    (∀ tc : Nat,
      packageFrameData tc ⟨[], 0, 10, 20, 30, 1000, 2000, 3000, 0, 0, 0, 0⟩ =
        ⟨200, 300, 100, 20, -100, 30, tc⟩) := by
  refine ⟨fun tc p => ⟨rfl, rfl, rfl, rfl, rfl, rfl⟩, fun tc => ?_⟩
  norm_num [packageFrameData]

/-- C5: `parsePacket` returns no packet for any buffer whose first byte
differs from `0xD1` (the decoder is never invoked), and invokes the
`FreeDPacket` constructor on every buffer whose first byte is `0xD1`. -/
theorem c5_recognition_gate (x : Nat) (rest : List Nat) :
    (x ≠ 0xd1 → parsePacket (x :: rest) = none) ∧
    (x = 0xd1 → parsePacket (x :: rest) = some (freeDPacketInit (x :: rest))) := by
  constructor
  · intro hx
    simp [parsePacket, hx]
  · intro hx
    subst hx
    simp [parsePacket]

/-- Witness for C5 at a zero-led and a `0xD1`-led buffer. -/
theorem c5_recognition_witness :
    ((0 : Nat) ≠ 0xd1 ∧ parsePacket (0 :: List.replicate 28 0) = none) ∧
    parsePacket (0xd1 :: List.replicate 28 0) =
      some (freeDPacketInit (0xd1 :: List.replicate 28 0)) :=
  ⟨⟨by decide, (c5_recognition_gate 0 (List.replicate 28 0)).1 (by decide)⟩,
   (c5_recognition_gate 0xd1 (List.replicate 28 0)).2 rfl⟩

/-- C6: the converter stamps the externally supplied system timecode into
the output record unmodified. -/
theorem c6_timecode_passthrough :
    ∀ (tc : Nat) (p : FreeDPacket), (packageFrameData tc p).timecode = tc :=
  fun _ _ => rfl

/-- C7: encoding any signed 24-bit integer as 3 big-endian
two's-complement bytes and decoding with `getFreeDFloat` (fractionalBits
15 or 6) reproduces exactly the value divided by the power of two. -/
theorem c7_roundtrip (n : Int) (f : Nat) (hf : f = 15 ∨ f = 6)
    (h1 : -(2 ^ 23) ≤ n) (h2 : n < 2 ^ 23) :
    getFreeDFloat (encode24BE n) f = (n : ℚ) / 2 ^ f := by
  rw [getFreeDFloat_eq, decode_encode24BE n h1 h2]

/-- Witness for C7 at the most negative representable value. -/
theorem c7_roundtrip_witness :
    ((15 = 15 ∨ 15 = 6) ∧ -(2 ^ 23) ≤ (-8388608 : Int) ∧ (-8388608 : Int) < 2 ^ 23) ∧
    getFreeDFloat (encode24BE (-8388608)) 15 = ((-8388608 : Int) : ℚ) / 2 ^ 15 :=
  ⟨⟨Or.inl rfl, by decide, by decide⟩,
   c7_roundtrip (-8388608) 15 (Or.inl rfl) (by decide) (by decide)⟩

/-- C8: a 29-byte `0xD1`-led buffer decodes to a packet that stores
exactly those 29 bytes; re-deriving every field from the stored bytes
reproduces the identical record; and `checksumValid` is a pure function
of the stored bytes alone, so equal stored bytes give equal results. -/
theorem c8_immutability :
    (∀ b : List Nat, b.length = 29 → b.take 1 = [0xd1] →
      parsePacket b = some (.ok (decodeFields b)) ∧
      (decodeFields b).packetBytes = b ∧
      decodeFields ((decodeFields b).packetBytes) = decodeFields b) ∧
    (∀ p q : FreeDPacket, p.packetBytes = q.packetBytes →
      p.checksumValid = q.checksumValid) := by
  constructor
  · intro b hb hd1
    refine ⟨?_, rfl, rfl⟩
    simp [parsePacket, hd1, freeDPacketInit, hb, FREED_PACKET_SIZE]
  · intro p q h
    simp [FreeDPacket.checksumValid, h]

/-- Witness for C8 at a concrete `0xD1`-led 29-byte buffer, and for a pair
of packet records sharing the stored bytes but differing elsewhere. -/
theorem c8_immutability_witness :
    ((0xd1 :: List.replicate 28 0 : List Nat).length = 29 ∧
      (0xd1 :: List.replicate 28 0 : List Nat).take 1 = [0xd1]) ∧
    (parsePacket (0xd1 :: List.replicate 28 0) =
        some (.ok (decodeFields (0xd1 :: List.replicate 28 0))) ∧
      (decodeFields (0xd1 :: List.replicate 28 0)).packetBytes =
        0xd1 :: List.replicate 28 0 ∧
      decodeFields ((decodeFields (0xd1 :: List.replicate 28 0)).packetBytes) =
        decodeFields (0xd1 :: List.replicate 28 0)) ∧
    (decodeFields (0xd1 :: List.replicate 28 0)).checksumValid =
      FreeDPacket.checksumValid
        ⟨0xd1 :: List.replicate 28 0, 0, 1, 2, 3, 4, 5, 6, 7, 8, 9, 10⟩ :=
  ⟨⟨by decide, by decide⟩,
   c8_immutability.1 (0xd1 :: List.replicate 28 0) (by decide) (by decide),
   c8_immutability.2 _ _ rfl⟩

/-- C9: the checksum verdict depends only on each byte's residue mod 4
(its two least-significant bits): buffers agreeing pointwise mod 4 get
the same verdict, so corruption confined to the high 6 bits of any bytes
is never detected. -/
theorem c9_checksum_low_bits (b1 b2 : List Nat) (h1 : b1.length = 29)
    (h2 : b2.length = 29) (hlow : b1.map (· % 4) = b2.map (· % 4)) :
    checksumValidBytes b1 = checksumValidBytes b2 := by
  cases b1 with
  | nil => simp at h1
  | cons x t =>
      cases b2 with
      | nil => simp at h2
      | cons y s =>
          rw [checksumValidBytes_cons, checksumValidBytes_cons]
          have hsum := sumInt_mod_congr (x :: t) (y :: s) hlow
          have he : (0x40 - sumInt (x :: t)) % 4 = (0x40 - sumInt (y :: s)) % 4 := by
            omega
          rw [he]

/-- Witness for C9: the all-zero buffer and the all-fours buffer agree on
every byte's low 2 bits and receive the same verdict. -/
theorem c9_checksum_witness :
    ((List.replicate 29 0 : List Nat).map (· % 4) =
      (List.replicate 29 4 : List Nat).map (· % 4)) ∧
    checksumValidBytes (List.replicate 29 0) =
      checksumValidBytes (List.replicate 29 4) :=
  ⟨by decide,
   c9_checksum_low_bits (List.replicate 29 0) (List.replicate 29 4)
     (by decide) (by decide) (by decide)⟩

/-- C10 counterexample: in the 29-byte buffer whose pos_x field holds
`0x7FFFFF`, the decoded pos_x is `8388607 / 64 > 65536`, outside the
claimed interval `[-65536, 65536)`. -/
theorem c10_range_counterexample :
    maxPosXBuf.length = 29 ∧ (∀ x ∈ maxPosXBuf, x < 256) ∧
    ¬ (decodeFields maxPosXBuf).pos_x < 65536 := by
  refine ⟨by decide, by decide, ?_⟩
  have e : fieldSlice maxPosXBuf 11 3 = [0x7f, 0xff, 0xff] := by decide
  have hx : (decodeFields maxPosXBuf).pos_x = getFreeDFloat [0x7f, 0xff, 0xff] 6 := by
    show getFreeDFloat (fieldSlice maxPosXBuf 11 3) 6 = _
    rw [e]
  rw [hx, getFreeDFloat_eq, intFromBytesSignedBE_three]
  norm_num [twosComplement24]

/-- C10 amended: for every 29-byte buffer of genuine bytes the rotation
fields lie in `[-256, 256)` and the position fields lie in
`[-131072, 131072)`; the decoder imposes no tighter `[-180, 180]` bound
on rotations, as the pan value `8388607 / 32768 > 180` shows. -/
theorem c10_field_ranges :
    (∀ b : List Nat, b.length = 29 → (∀ x ∈ b, x < 256) →
      (-256 ≤ (decodeFields b).rot_pan ∧ (decodeFields b).rot_pan < 256) ∧
      (-256 ≤ (decodeFields b).rot_tilt ∧ (decodeFields b).rot_tilt < 256) ∧
      (-256 ≤ (decodeFields b).rot_roll ∧ (decodeFields b).rot_roll < 256) ∧
      (-131072 ≤ (decodeFields b).pos_x ∧ (decodeFields b).pos_x < 131072) ∧
      (-131072 ≤ (decodeFields b).pos_y ∧ (decodeFields b).pos_y < 131072) ∧
      (-131072 ≤ (decodeFields b).pos_z ∧ (decodeFields b).pos_z < 131072)) ∧
    180 < (decodeFields maxPanBuf).rot_pan := by
  constructor
  · intro b hb hby
    have h15 : (2 : ℚ) ^ 23 / 2 ^ 15 = 256 := by norm_num
    have h6 : (2 : ℚ) ^ 23 / 2 ^ 6 = 131072 := by norm_num
    have p2 := decodeField_bound b hb hby 2 (by omega) 15
    have p5 := decodeField_bound b hb hby 5 (by omega) 15
    have p8 := decodeField_bound b hb hby 8 (by omega) 15
    have p11 := decodeField_bound b hb hby 11 (by omega) 6
    have p14 := decodeField_bound b hb hby 14 (by omega) 6
    have p17 := decodeField_bound b hb hby 17 (by omega) 6
    rw [h15] at p2 p5 p8
    rw [h6] at p11 p14 p17
    exact ⟨p2, p5, p8, p11, p14, p17⟩
  · have e : fieldSlice maxPanBuf 2 3 = [0x7f, 0xff, 0xff] := by decide
    have hx : (decodeFields maxPanBuf).rot_pan = getFreeDFloat [0x7f, 0xff, 0xff] 15 := by
      show getFreeDFloat (fieldSlice maxPanBuf 2 3) 15 = _
      rw [e]
    rw [hx, getFreeDFloat_eq, intFromBytesSignedBE_three]
    norm_num [twosComplement24]

/-- Witness for the amended C10 at the all-zero 29-byte buffer. -/
theorem c10_field_ranges_witness :
    ((List.replicate 29 0 : List Nat).length = 29 ∧
      (∀ x ∈ (List.replicate 29 0 : List Nat), x < 256)) ∧
    ((-256 ≤ (decodeFields (List.replicate 29 0)).rot_pan ∧
        (decodeFields (List.replicate 29 0)).rot_pan < 256) ∧
      (-256 ≤ (decodeFields (List.replicate 29 0)).rot_tilt ∧
        (decodeFields (List.replicate 29 0)).rot_tilt < 256) ∧
      (-256 ≤ (decodeFields (List.replicate 29 0)).rot_roll ∧
        (decodeFields (List.replicate 29 0)).rot_roll < 256) ∧
      (-131072 ≤ (decodeFields (List.replicate 29 0)).pos_x ∧
        (decodeFields (List.replicate 29 0)).pos_x < 131072) ∧
      (-131072 ≤ (decodeFields (List.replicate 29 0)).pos_y ∧
        (decodeFields (List.replicate 29 0)).pos_y < 131072) ∧
      (-131072 ≤ (decodeFields (List.replicate 29 0)).pos_z ∧
        (decodeFields (List.replicate 29 0)).pos_z < 131072)) :=
  ⟨⟨by decide, by decide⟩,
   c10_field_ranges.1 (List.replicate 29 0) (by decide) (by decide)⟩

end FreeD
